import Mathlib

/-
Verification development for the WiFiManager-IDF component.

The definitions below are a shallow embedding of the C++ sources:
state machine fields and transitions from WiFiManager.cpp
(updateState, process, wifiEventHandler, ipEventHandler,
startConfigPortalInternal), the scan filtering pipeline
(calculateSignalQuality, isDuplicateSSID, filterScanResults),
the captive DNS responder (dnsServerTask), server teardown
(stopServers, stopHTTPServer, stopDNSServer) and the custom
parameter registry (addParameter).  Machine integers are modelled
as Nat/Int; the 64-bit monotonic clock esp_timer_get_time() becomes
an explicit argument.
-/

namespace WiFiMgr

/-- The wm_state_t enumeration from wm_config.h. -/
inductive WMState where
  | INIT
  | TRY_STA
  | RUN_STA
  | START_PORTAL
  | RUN_PORTAL
  | PORTAL_ABORT
  | PORTAL_TIMEOUT
deriving DecidableEq, Repr

/-- The wl_status_t enumeration from wm_config.h. -/
inductive WLStatus where
  | WL_IDLE_STATUS
  | WL_NO_SSID_AVAIL
  | WL_SCAN_COMPLETED
  | WL_CONNECTED
  | WL_CONNECT_FAILED
  | WL_CONNECTION_LOST
  | WL_WRONG_PASSWORD
  | WL_DISCONNECTED
deriving DecidableEq, Repr

/-- The WiFiManager fields that the state machine logic reads and writes:
the current state, the last connection result, the two monotonic start
markers (microseconds, int64), the two timeout values (microseconds,
uint32 fields in the header), and whether a save-config callback has been
registered with setSaveConfigCallback. -/
structure Manager where
  state : WMState
  lastConxResult : WLStatus
  connectStart : Int
  configPortalStart : Int
  connectTimeout : Nat
  configPortalTimeout : Nat
  saveConfigRegistered : Bool
deriving DecidableEq, Repr

/-- WiFiManager::updateState.  The current monotonic time
(esp_timer_get_time()) is passed explicitly as now. -/
def updateState (now : Int) (m : Manager) : Manager :=
  match m.state with
  | WMState.TRY_STA =>
      if (m.connectTimeout : Int) < now - m.connectStart then
        { m with lastConxResult := WLStatus.WL_CONNECT_FAILED
               , state := WMState.START_PORTAL }
      else m
  | WMState.RUN_PORTAL =>
      if 0 < m.configPortalTimeout ∧
          (m.configPortalTimeout : Int) < now - m.configPortalStart then
        { m with state := WMState.PORTAL_TIMEOUT }
      else m
  | _ => m

/-- WiFiManager::process: one updateState pass, returning true while the
state is TRY_STA or RUN_PORTAL. -/
def process (now : Int) (m : Manager) : Manager × Bool :=
  let m2 := updateState now m
  (m2, m2.state == WMState.TRY_STA || m2.state == WMState.RUN_PORTAL)

/-- The timeout check of the blocking loop in
WiFiManager::startConfigPortalInternal (lines 313-319). -/
def blockingLoopTimedOut (now : Int) (m : Manager) : Bool :=
  decide (0 < m.configPortalTimeout) &&
    decide ((m.configPortalTimeout : Int) < now - m.configPortalStart)

/-- WiFiManager::setConfigPortalTimeout: seconds are converted to
microseconds and stored into a uint32 field. -/
def setConfigPortalTimeout (m : Manager) (seconds : Nat) : Manager :=
  { m with configPortalTimeout := (seconds * 1000000) % 2 ^ 32 }

/-- The wifi_err_reason_t values named in the disconnect switch of
WiFiManager::wifiEventHandler; every other reason code is collapsed
into the catch-all constructor, matching the default branch. -/
inductive DisconnectReason where
  | NO_AP_FOUND
  | NO_AP_FOUND_W_COMPATIBLE_SECURITY
  | NO_AP_FOUND_IN_AUTHMODE_THRESHOLD
  | NO_AP_FOUND_IN_RSSI_THRESHOLD
  | AUTH_EXPIRE
  | AUTH_LEAVE
  | FOURWAY_HANDSHAKE_TIMEOUT
  | GROUP_KEY_UPDATE_TIMEOUT
  | IEEE8021X_AUTH_FAILED
  | other (code : Nat)
deriving DecidableEq, Repr

/-- The reason-to-wl_status_t classification switch inside the
WIFI_EVENT_STA_DISCONNECTED case of WiFiManager::wifiEventHandler. -/
def mapDisconnectReason : DisconnectReason → WLStatus
  | DisconnectReason.NO_AP_FOUND => WLStatus.WL_NO_SSID_AVAIL
  | DisconnectReason.NO_AP_FOUND_W_COMPATIBLE_SECURITY => WLStatus.WL_NO_SSID_AVAIL
  | DisconnectReason.NO_AP_FOUND_IN_AUTHMODE_THRESHOLD => WLStatus.WL_NO_SSID_AVAIL
  | DisconnectReason.NO_AP_FOUND_IN_RSSI_THRESHOLD => WLStatus.WL_NO_SSID_AVAIL
  | DisconnectReason.AUTH_EXPIRE => WLStatus.WL_WRONG_PASSWORD
  | DisconnectReason.AUTH_LEAVE => WLStatus.WL_WRONG_PASSWORD
  | DisconnectReason.FOURWAY_HANDSHAKE_TIMEOUT => WLStatus.WL_WRONG_PASSWORD
  | DisconnectReason.GROUP_KEY_UPDATE_TIMEOUT => WLStatus.WL_WRONG_PASSWORD
  | DisconnectReason.IEEE8021X_AUTH_FAILED => WLStatus.WL_WRONG_PASSWORD
  | _ => WLStatus.WL_CONNECT_FAILED

/-- The WIFI_EVENT ids handled by WiFiManager::wifiEventHandler. -/
inductive WifiEvent where
  | STA_START
  | STA_CONNECTED
  | STA_DISCONNECTED (reason : DisconnectReason)
  | AP_START
  | AP_STOP
  | AP_STACONNECTED
  | AP_STADISCONNECTED
  | other (id : Int)
deriving DecidableEq, Repr

/-- The IP_EVENT ids handled by WiFiManager::ipEventHandler. -/
inductive IpEvent where
  | STA_GOT_IP
  | STA_LOST_IP
  | AP_STAIPASSIGNED
  | other (id : Int)
deriving DecidableEq, Repr

/-- WiFiManager::wifiEventHandler.  The Bool result records whether the
save-config callback was invoked during the event (it never is here). -/
def wifiEventHandler : WifiEvent → Manager → Manager × Bool
  | WifiEvent.STA_DISCONNECTED r, m =>
      let m1 : Manager := { m with lastConxResult := mapDisconnectReason r }
      if m1.state = WMState.TRY_STA then
        ({ m1 with state := WMState.START_PORTAL }, false)
      else
        (m1, false)
  | _, m => (m, false)

/-- WiFiManager::ipEventHandler.  The Bool result records whether the
save-config callback was invoked: on IP_EVENT_STA_GOT_IP the callback
fires exactly when one is registered. -/
def ipEventHandler : IpEvent → Manager → Manager × Bool
  | IpEvent.STA_GOT_IP, m =>
      ({ m with lastConxResult := WLStatus.WL_CONNECTED
              , state := WMState.RUN_STA }, m.saveConfigRegistered)
  | IpEvent.STA_LOST_IP, m =>
      ({ m with lastConxResult := WLStatus.WL_CONNECTION_LOST }, false)
  | _, m => (m, false)

/-- A manager sitting in RUN_PORTAL with the portal timeout set to zero. -/
def mgr0 : Manager :=
  { state := WMState.RUN_PORTAL
  , lastConxResult := WLStatus.WL_IDLE_STATUS
  , connectStart := 0
  , configPortalStart := 0
  , connectTimeout := 30000000
  , configPortalTimeout := 0
  , saveConfigRegistered := false }

/-- A manager sitting in RUN_PORTAL with a positive (180 s) portal timeout. -/
def mgr1 : Manager :=
  { state := WMState.RUN_PORTAL
  , lastConxResult := WLStatus.WL_IDLE_STATUS
  , connectStart := 0
  , configPortalStart := 0
  , connectTimeout := 30000000
  , configPortalTimeout := 180000000
  , saveConfigRegistered := false }

/-- A manager sitting in START_PORTAL. -/
def mgrSP : Manager :=
  { state := WMState.START_PORTAL
  , lastConxResult := WLStatus.WL_IDLE_STATUS
  , connectStart := 0
  , configPortalStart := 0
  , connectTimeout := 30000000
  , configPortalTimeout := 180000000
  , saveConfigRegistered := true }

/-- One record of the wifi_ap_record_t scan result list, restricted to
the fields the filtering pipeline reads (ssid, rssi) plus the channel
and authmode fields it carries along. -/
structure APRecord where
  ssid : String
  rssi : Int
  primary : Nat
  authmode : Nat
deriving DecidableEq, Repr

/-- WiFiManager::calculateSignalQuality: quality = 2*(rssi+100),
clamped into 0..100 (upper bound applied first, as in the source). -/
def calculateSignalQuality (rssi : Int) : Int :=
  let quality := 2 * (rssi + 100)
  let quality2 := if 100 < quality then 100 else quality
  if quality2 < 0 then 0 else quality2

/-- WiFiManager::isDuplicateSSID: linear scan comparing SSID strings. -/
def isDuplicateSSID (ssid : String) (results : List APRecord) : Bool :=
  results.any (fun ap => ap.ssid == ssid)

/-- The inner replacement loop of WiFiManager::filterScanResults for a
duplicate SSID: find the first entry with the same SSID, replace it when
the new record has a strictly stronger signal, then break. -/
def replaceStronger (ap : APRecord) : List APRecord → List APRecord
  | [] => []
  | existing :: rest =>
      if existing.ssid = ap.ssid then
        (if existing.rssi < ap.rssi then ap else existing) :: rest
      else
        existing :: replaceStronger ap rest

/-- The body of the main loop of WiFiManager::filterScanResults, acting on
the accumulator list for one raw record: skip empty SSIDs, then apply the
minimum-quality threshold (only when the threshold is positive), then
handle duplicates (only when duplicate removal is enabled), else append. -/
def filterStep (minimumQuality : Int) (removeDuplicateAPs : Bool)
    (filtered : List APRecord) (ap : APRecord) : List APRecord :=
  if ap.ssid = "" then filtered
  else if 0 < minimumQuality ∧ calculateSignalQuality ap.rssi < minimumQuality then
    filtered
  else if removeDuplicateAPs = true ∧ isDuplicateSSID ap.ssid filtered = true then
    replaceStronger ap filtered
  else
    filtered ++ [ap]

/-- Descending insertion by rssi; insertion sort refines the std sort
call with comparator (a.rssi > b.rssi) used by filterScanResults: it
produces a permutation ordered by non-increasing rssi. -/
def insertByRssi (ap : APRecord) : List APRecord → List APRecord
  | [] => [ap]
  | b :: rest => if b.rssi < ap.rssi then ap :: b :: rest else b :: insertByRssi ap rest

/-- Sort by descending raw signal strength, as the std sort call at the
end of WiFiManager::filterScanResults. -/
def sortByRssiDesc (l : List APRecord) : List APRecord :=
  l.foldr insertByRssi []

/-- WiFiManager::filterScanResults as a function of the configuration
(_minimumQuality, _removeDuplicateAPs) and the raw scan list: early
return for an empty input, one filtering pass, then the descending sort. -/
def filterScanResults (minimumQuality : Int) (removeDuplicateAPs : Bool)
    (raw : List APRecord) : List APRecord :=
  if raw = [] then raw
  else sortByRssiDesc (raw.foldl (filterStep minimumQuality removeDuplicateAPs) [])

/-- A raw record survives the empty-SSID drop and the minimum-quality
threshold of the filtering loop. -/
def passesFilters (minimumQuality : Int) (ap : APRecord) : Prop :=
  ap.ssid ≠ "" ∧ ¬(0 < minimumQuality ∧ calculateSignalQuality ap.rssi < minimumQuality)

/-- The DNS header size (sizeof(dns_header_t) = 12 bytes). -/
def DNS_HEADER_SIZE : Nat := 12

/-- DNS_MAX_PACKET_SIZE from the DNS responder. -/
def DNS_MAX_PACKET_SIZE : Nat := 512

/-- The 16-byte answer record WiFiManager::dnsServerTask appends: a
compressed-name pointer to offset 12, type A, class IN, TTL 60 seconds,
4 data bytes holding the portal AP address 192.168.4.1. -/
def dnsAnswerRecord : List Nat :=
  [0xC0, 0x0C, 0x00, 0x01, 0x00, 0x01, 0x00, 0x00, 0x00, 0x3C, 0x00, 0x04, 192, 168, 4, 1]

/-- The in-place header rewrite of WiFiManager::dnsServerTask on a packet
of at least 12 bytes (big-endian byte pairs): OR the response and
authoritative-answer bits (0x8400) into the flags word, copy qdcount into
ancount, zero nscount and arcount, and keep everything else. -/
def dnsModifyHeader : List Nat → List Nat
  | id0 :: id1 :: f0 :: f1 :: q0 :: q1 :: _ :: _ :: _ :: _ :: _ :: _ :: rest =>
      id0 :: id1 :: (f0 ||| 0x84) :: f1 :: q0 :: q1 :: q0 :: q1 :: 0 :: 0 :: 0 :: 0 :: rest
  | p => p

/-- The per-packet behavior of the receive loop of
WiFiManager::dnsServerTask: packets shorter than a DNS header produce no
response; otherwise the packet is echoed with the rewritten header and,
when the 16 extra bytes fit below DNS_MAX_PACKET_SIZE, the single fixed
answer record is appended. -/
def dnsServerRespond (query : List Nat) : Option (List Nat) :=
  if query.length < DNS_HEADER_SIZE then none
  else
    let response := dnsModifyHeader query
    if query.length + 16 < DNS_MAX_PACKET_SIZE then
      some (response ++ dnsAnswerRecord)
    else
      some response

/-- The question-count field of a DNS packet (big-endian bytes 4 and 5). -/
def dnsQdcount (query : List Nat) : Nat :=
  query.getD 4 0 * 256 + query.getD 5 0

/-- A syntactically well-formed two-question DNS query packet
(id 42, qdcount 2, questions for names a and b, type A, class IN). -/
def dnsTwoQuestionPacket : List Nat :=
  [0, 42, 1, 0, 0, 2, 0, 0, 0, 0, 0, 0] ++
    [1, 97, 0, 0, 1, 0, 1] ++ [1, 98, 0, 0, 1, 0, 1]

/-- The Manager fields touched by WiFiManager::stopServers and the
subsystem teardown helpers: the HTTP server handle (modelled as a
non-null flag), the DNS running flag, the DNS socket descriptor, the DNS
task handle (non-null flag) and the re-entrant cleanup guard. -/
structure ServerState where
  httpServer : Bool
  dnsRunning : Bool
  dnsSocket : Int
  dnsTaskHandle : Bool
  cleanupInProgress : Bool
deriving DecidableEq, Repr

/-- WiFiManager::stopHTTPServer: stop the server and null the handle when
it is non-null (the handle is cleared even on an httpd_stop error). -/
def stopHTTPServer (s : ServerState) : ServerState :=
  if s.httpServer = true then { s with httpServer := false } else s

/-- WiFiManager::stopDNSServer: early return when already stopped;
otherwise clear the running flag, close the socket when it is open, and
wait for the task to end (the task nulls its own handle on exit, and the
bounded wait deletes it and nulls the handle otherwise — modelled as the
quiescent result of that shutdown protocol). -/
def stopDNSServer (s : ServerState) : ServerState :=
  if s.dnsRunning = false then s
  else
    { s with dnsRunning := false
           , dnsSocket := if 0 ≤ s.dnsSocket then -1 else s.dnsSocket
           , dnsTaskHandle := false }

/-- WiFiManager::stopServers: unless a cleanup is already in flight, set
the guard, stop the HTTP then the DNS subsystem, and clear the guard. -/
def stopServers (s : ServerState) : ServerState :=
  if s.cleanupInProgress = false then
    let s1 := { s with cleanupInProgress := true }
    let s2 := stopDNSServer (stopHTTPServer s1)
    { s2 with cleanupInProgress := false }
  else s

/-- A server state with both subsystems running and no cleanup in flight. -/
def srv0 : ServerState :=
  { httpServer := true
  , dnsRunning := true
  , dnsSocket := 3
  , dnsTaskHandle := true
  , cleanupInProgress := false }

/-- A registered custom parameter, reduced to the fields the registry
logic observes (its identifier and current value). -/
structure WMParameter where
  id : String
  value : String
deriving DecidableEq, Repr

/-- WiFiManager::addParameter: the pointer argument is an Option; a
non-null parameter is appended when the registry is below
WM_MAX_CUSTOM_PARAMS, and the call does nothing otherwise. -/
def addParameter (maxParams : Nat) (params : List WMParameter)
    (p : Option WMParameter) : List WMParameter :=
  match p with
  | none => params
  | some param =>
      if params.length < maxParams then params ++ [param] else params

/-- A raw scan list with a duplicate SSID only (keeps the duplicate when
duplicate removal is disabled). -/
def rawDup : List APRecord :=
  [{ ssid := "a", rssi := -50, primary := 1, authmode := 0 },
   { ssid := "a", rssi := -60, primary := 1, authmode := 0 }]

/-- A raw scan list mixing a duplicate SSID, a hidden (empty-SSID)
network and a low-quality network. -/
def rawEx : List APRecord :=
  [{ ssid := "net1", rssi := -60, primary := 1, authmode := 3 },
   { ssid := "net1", rssi := -40, primary := 6, authmode := 3 },
   { ssid := "", rssi := -30, primary := 1, authmode := 0 },
   { ssid := "weak", rssi := -96, primary := 11, authmode := 3 }]

/-- The clamp form of calculateSignalQuality. -/
theorem calcQuality_eq (rssi : Int) :
    calculateSignalQuality rssi = max 0 (min 100 (2 * (rssi + 100))) := by
  simp only [calculateSignalQuality]
  split_ifs <;> omega

/-- Claim C6: for every integer RSSI value, the derived signal-quality
percentage equals clamp(2*(rssi+100), 0, 100), always lies in 0..100,
and is monotonically non-decreasing in the signal strength. -/
theorem calculateSignalQuality_clamp :
    (∀ rssi : Int, calculateSignalQuality rssi = max 0 (min 100 (2 * (rssi + 100)))) ∧
    (∀ rssi : Int, 0 ≤ calculateSignalQuality rssi ∧ calculateSignalQuality rssi ≤ 100) ∧
    (∀ r1 r2 : Int, r1 ≤ r2 → calculateSignalQuality r1 ≤ calculateSignalQuality r2) := by
  refine ⟨calcQuality_eq, ?_, ?_⟩
  · intro rssi
    rw [calcQuality_eq]
    omega
  · intro r1 r2 h
    rw [calcQuality_eq, calcQuality_eq]
    omega

/-- Claim C6 witness: monotonicity applied at the concrete pair -80 ≤ -50. -/
theorem calculateSignalQuality_clamp_witness :
    calculateSignalQuality (-80) ≤ calculateSignalQuality (-50) :=
  calculateSignalQuality_clamp.2.2 (-80) (-50) (by decide)

/-- Claim C2: process performs a single updateState pass and returns true
exactly when the state after that pass is TRY_STA (still connecting) or
RUN_PORTAL (portal still running); in every other, terminal or idle,
state it returns false. -/
theorem process_active_iff (now : Int) (m : Manager) :
    (process now m).1 = updateState now m ∧
    ((process now m).2 = true ↔
      ((process now m).1.state = WMState.TRY_STA ∨
        (process now m).1.state = WMState.RUN_PORTAL)) := by
  constructor
  · rfl
  · simp [process]

/-- Claim C4: the disconnect-reason switch maps every reason into the
closed result set {WL_NO_SSID_AVAIL, WL_WRONG_PASSWORD,
WL_CONNECTION_LOST, WL_CONNECT_FAILED}, with exactly the four no-AP
reasons going to WL_NO_SSID_AVAIL, exactly the five authentication
reasons going to WL_WRONG_PASSWORD, every unlisted reason going to
WL_CONNECT_FAILED, and every delivered disconnect event storing the
mapped value as the last connection result. -/
theorem disconnect_reason_classification :
    (∀ r : DisconnectReason,
        mapDisconnectReason r = WLStatus.WL_NO_SSID_AVAIL ∨
        mapDisconnectReason r = WLStatus.WL_WRONG_PASSWORD ∨
        mapDisconnectReason r = WLStatus.WL_CONNECTION_LOST ∨
        mapDisconnectReason r = WLStatus.WL_CONNECT_FAILED) ∧
    mapDisconnectReason DisconnectReason.NO_AP_FOUND = WLStatus.WL_NO_SSID_AVAIL ∧
    mapDisconnectReason DisconnectReason.NO_AP_FOUND_W_COMPATIBLE_SECURITY
      = WLStatus.WL_NO_SSID_AVAIL ∧
    mapDisconnectReason DisconnectReason.NO_AP_FOUND_IN_AUTHMODE_THRESHOLD
      = WLStatus.WL_NO_SSID_AVAIL ∧
    mapDisconnectReason DisconnectReason.NO_AP_FOUND_IN_RSSI_THRESHOLD
      = WLStatus.WL_NO_SSID_AVAIL ∧
    mapDisconnectReason DisconnectReason.AUTH_EXPIRE = WLStatus.WL_WRONG_PASSWORD ∧
    mapDisconnectReason DisconnectReason.AUTH_LEAVE = WLStatus.WL_WRONG_PASSWORD ∧
    mapDisconnectReason DisconnectReason.FOURWAY_HANDSHAKE_TIMEOUT
      = WLStatus.WL_WRONG_PASSWORD ∧
    mapDisconnectReason DisconnectReason.GROUP_KEY_UPDATE_TIMEOUT
      = WLStatus.WL_WRONG_PASSWORD ∧
    mapDisconnectReason DisconnectReason.IEEE8021X_AUTH_FAILED
      = WLStatus.WL_WRONG_PASSWORD ∧
    (∀ code : Nat,
        mapDisconnectReason (DisconnectReason.other code) = WLStatus.WL_CONNECT_FAILED) ∧
    (∀ (r : DisconnectReason) (m : Manager),
        (wifiEventHandler (WifiEvent.STA_DISCONNECTED r) m).1.lastConxResult
          = mapDisconnectReason r) := by
  refine ⟨?_, rfl, rfl, rfl, rfl, rfl, rfl, rfl, rfl, rfl, fun _ => rfl, ?_⟩
  · intro r
    cases r <;> simp [mapDisconnectReason]
  · intro r m
    simp only [wifiEventHandler]
    split <;> rfl

/-- Claim C3: with a zero portal timeout the state machine never leaves
RUN_PORTAL by timeout — a single tick is the identity, any number of
process calls is the identity, and the blocking-loop timeout test is
false — while with a positive portal timeout a tick in RUN_PORTAL moves
to PORTAL_TIMEOUT exactly when the elapsed monotonic time since the
portal start marker exceeds the timeout, and is the identity otherwise. -/
theorem portal_timeout_policy :
    (∀ (now : Int) (m : Manager), m.state = WMState.RUN_PORTAL →
        m.configPortalTimeout = 0 → updateState now m = m) ∧
    (∀ (nows : List Int) (m : Manager), m.state = WMState.RUN_PORTAL →
        m.configPortalTimeout = 0 →
        nows.foldl (fun acc t => (process t acc).1) m = m) ∧
    (∀ (now : Int) (m : Manager), m.configPortalTimeout = 0 →
        blockingLoopTimedOut now m = false) ∧
    (∀ (now : Int) (m : Manager), m.state = WMState.RUN_PORTAL →
        0 < m.configPortalTimeout →
        ((updateState now m).state = WMState.PORTAL_TIMEOUT ↔
          (m.configPortalTimeout : Int) < now - m.configPortalStart)) ∧
    (∀ (now : Int) (m : Manager), m.state = WMState.RUN_PORTAL →
        0 < m.configPortalTimeout →
        ¬ (m.configPortalTimeout : Int) < now - m.configPortalStart →
        updateState now m = m) := by
  have hzero : ∀ (now : Int) (m : Manager), m.state = WMState.RUN_PORTAL →
      m.configPortalTimeout = 0 → updateState now m = m := by
    intro now m hs hz
    simp [updateState, hs, hz]
  refine ⟨hzero, ?_, ?_, ?_, ?_⟩
  · intro nows m hs hz
    induction nows with
    | nil => rfl
    | cons t ts ih =>
        have h1 : (process t m).1 = m := hzero t m hs hz
        simpa [List.foldl, h1] using ih
  · intro now m hz
    simp [blockingLoopTimedOut, hz]
  · intro now m hs hpos
    simp only [updateState, hs]
    split
    · rename_i hc
      simp [hc.2]
    · rename_i hc
      rw [not_and] at hc
      simp [hs, hc hpos]
  · intro now m hs hpos hne
    simp [updateState, hs, hne]

/-- Claim C3 witness: a zero-timeout portal never ticks out even far in
the future, and a 180-second portal has ticked out at 180000001 µs. -/
theorem portal_timeout_policy_witness :
    updateState 999999999999 mgr0 = mgr0 ∧
    [1, 2, 999999999999].foldl (fun acc t => (process t acc).1) mgr0 = mgr0 ∧
    blockingLoopTimedOut 999999999999 mgr0 = false ∧
    ((updateState 180000001 mgr1).state = WMState.PORTAL_TIMEOUT ↔
      ((mgr1.configPortalTimeout : Int) < 180000001 - mgr1.configPortalStart)) ∧
    updateState 180000000 mgr1 = mgr1 :=
  ⟨portal_timeout_policy.1 999999999999 mgr0 rfl rfl,
   portal_timeout_policy.2.1 [1, 2, 999999999999] mgr0 rfl rfl,
   portal_timeout_policy.2.2.1 999999999999 mgr0 rfl,
   portal_timeout_policy.2.2.2.1 180000001 mgr1 rfl (by decide),
   portal_timeout_policy.2.2.2.2 180000000 mgr1 rfl (by decide) (by decide)⟩

/-- Claim C10: a tick changes the manager only from TRY_STA with the
connect timeout elapsed (to START_PORTAL) or from RUN_PORTAL with a
positive elapsed portal timeout (to PORTAL_TIMEOUT); in every other state
updateState is the identity on the whole record, and any number of
repeated process calls leaves a manager in START_PORTAL untouched — the
portal is never started by ticking alone. -/
theorem updateState_frame :
    (∀ (now : Int) (m : Manager), m.state ≠ WMState.TRY_STA →
        m.state ≠ WMState.RUN_PORTAL → updateState now m = m) ∧
    (∀ (now : Int) (m : Manager), m.state = WMState.TRY_STA →
        updateState now m =
          if (m.connectTimeout : Int) < now - m.connectStart then
            { m with lastConxResult := WLStatus.WL_CONNECT_FAILED
                   , state := WMState.START_PORTAL }
          else m) ∧
    (∀ (now : Int) (m : Manager), m.state = WMState.RUN_PORTAL →
        updateState now m =
          if 0 < m.configPortalTimeout ∧
              (m.configPortalTimeout : Int) < now - m.configPortalStart then
            { m with state := WMState.PORTAL_TIMEOUT }
          else m) ∧
    (∀ (nows : List Int) (m : Manager), m.state = WMState.START_PORTAL →
        nows.foldl (fun acc t => (process t acc).1) m = m) := by
  refine ⟨?_, ?_, ?_, ?_⟩
  · intro now m h1 h2
    unfold updateState
    cases hs : m.state <;> simp_all
  · intro now m hs
    simp [updateState, hs]
  · intro now m hs
    simp [updateState, hs]
  · intro nows m hs
    have hid : ∀ t : Int, (process t m).1 = m := by
      intro t
      show updateState t m = m
      simp [updateState, hs]
    induction nows with
    | nil => rfl
    | cons t ts ih => simpa [List.foldl, hid t] using ih

/-- Claim C10 witness: updateState leaves a START_PORTAL manager
unchanged, and three process calls in a row leave it unchanged. -/
theorem updateState_frame_witness :
    updateState 5 mgrSP = mgrSP ∧
    [1, 2, 3].foldl (fun acc t => (process t acc).1) mgrSP = mgrSP :=
  ⟨updateState_frame.1 5 mgrSP (by decide) (by decide),
   updateState_frame.2.2.2 [1, 2, 3] mgrSP rfl⟩

/-- Claim C1: the IP-acquisition event is the sole trigger of RUN_STA and
of the save-config callback — every WiFi event and every non-GOT_IP IP
event leaves the callback unfired and can only be in RUN_STA afterwards
if the machine already was, a tick never moves into RUN_STA, and the
GOT_IP event always sets RUN_STA, records WL_CONNECTED, and fires the
save-config callback exactly when one is registered. -/
theorem got_ip_sole_run_sta_trigger :
    (∀ (e : WifiEvent) (m : Manager),
        (wifiEventHandler e m).2 = false ∧
        ((wifiEventHandler e m).1.state = WMState.RUN_STA →
          m.state = WMState.RUN_STA)) ∧
    (∀ (e : IpEvent) (m : Manager), e ≠ IpEvent.STA_GOT_IP →
        (ipEventHandler e m).2 = false ∧
        ((ipEventHandler e m).1.state = WMState.RUN_STA →
          m.state = WMState.RUN_STA)) ∧
    (∀ (now : Int) (m : Manager),
        (updateState now m).state = WMState.RUN_STA → m.state = WMState.RUN_STA) ∧
    (∀ m : Manager,
        (ipEventHandler IpEvent.STA_GOT_IP m).1.state = WMState.RUN_STA ∧
        (ipEventHandler IpEvent.STA_GOT_IP m).1.lastConxResult = WLStatus.WL_CONNECTED ∧
        (ipEventHandler IpEvent.STA_GOT_IP m).2 = m.saveConfigRegistered) := by
  refine ⟨?_, ?_, ?_, fun m => ⟨rfl, rfl, rfl⟩⟩
  · intro e m
    cases e
    case STA_DISCONNECTED r =>
      simp only [wifiEventHandler]
      constructor
      · split <;> rfl
      · split
        · intro h
          simp at h
        · intro h
          simpa using h
    all_goals exact ⟨rfl, fun h => h⟩
  · intro e m he
    cases e with
    | STA_GOT_IP => exact absurd rfl he
    | STA_LOST_IP => exact ⟨rfl, fun h => h⟩
    | AP_STAIPASSIGNED => exact ⟨rfl, fun h => h⟩
    | other id => exact ⟨rfl, fun h => h⟩
  · intro now m
    unfold updateState
    cases hs : m.state <;> simp_all
    · split
      · simp
      · simp [hs]
    · split
      · simp
      · simp [hs]

/-- Claim C1 witness: a lost-IP event on a RUN_PORTAL manager fires no
callback and does not produce RUN_STA. -/
theorem got_ip_sole_run_sta_trigger_witness :
    (ipEventHandler IpEvent.STA_LOST_IP mgr0).2 = false ∧
    ((ipEventHandler IpEvent.STA_LOST_IP mgr0).1.state = WMState.RUN_STA →
      mgr0.state = WMState.RUN_STA) :=
  got_ip_sole_run_sta_trigger.2.1 IpEvent.STA_LOST_IP mgr0 (by decide)

/-- Claim C8: stopServers is idempotent and, from any quiescent state
(no cleanup in flight, and the DNS task invariant that a stopped DNS
server has already closed its socket and cleared its task handle),
a single call leaves the HTTP handle null, the DNS subsystem stopped
with its socket closed and task handle null, and the guard flag false;
a second call changes nothing. -/
theorem stopServers_idempotent (s : ServerState)
    (hsock : -1 ≤ s.dnsSocket)
    (hq : s.dnsRunning = false → s.dnsSocket = -1 ∧ s.dnsTaskHandle = false) :
    stopServers (stopServers s) = stopServers s ∧
    (s.cleanupInProgress = false →
      (stopServers s).httpServer = false ∧
      (stopServers s).dnsRunning = false ∧
      (stopServers s).dnsSocket = -1 ∧
      (stopServers s).dnsTaskHandle = false ∧
      (stopServers s).cleanupInProgress = false) := by
  obtain ⟨http, dnsR, sock, task, cip⟩ := s
  simp only at hsock hq
  have hsock2 : (if (0 : Int) ≤ sock then (-1 : Int) else sock) = -1 := by
    split <;> omega
  cases cip
  · cases dnsR
    · obtain ⟨h1, h2⟩ := hq rfl
      subst h1
      subst h2
      cases http <;> simp [stopServers, stopHTTPServer, stopDNSServer]
    · cases http <;> cases task <;>
        simp [stopServers, stopHTTPServer, stopDNSServer, hsock2]
  · simp [stopServers]

/-- Claim C8 witness: idempotence and the stopped final state at a
concrete running server state. -/
theorem stopServers_idempotent_witness :
    stopServers (stopServers srv0) = stopServers srv0 ∧
    (srv0.cleanupInProgress = false →
      (stopServers srv0).httpServer = false ∧
      (stopServers srv0).dnsRunning = false ∧
      (stopServers srv0).dnsSocket = -1 ∧
      (stopServers srv0).dnsTaskHandle = false ∧
      (stopServers srv0).cleanupInProgress = false) :=
  stopServers_idempotent srv0 (by decide) (by decide)

/-- Claim C9 counterexample: registering a second parameter whose
identifier already exists in the registry is not rejected — with the
registry below capacity the duplicate is appended and the registry size
increases from 1 to 2. -/
theorem addParameter_duplicate_counterexample :
    (∃ q ∈ ([⟨"id1", "v"⟩] : List WMParameter), q.id = "id1") ∧
    addParameter 5 [⟨"id1", "v"⟩] (some ⟨"id1", "w"⟩)
      = [⟨"id1", "v"⟩, ⟨"id1", "w"⟩] ∧
    (addParameter 5 [⟨"id1", "v"⟩] (some ⟨"id1", "w"⟩)).length = 2 :=
  ⟨⟨⟨"id1", "v"⟩, by simp, rfl⟩, by decide, by decide⟩

/-- Claim C9 amended: addParameter is capacity-bounded — a null
parameter and a registration at the configured maximum are rejected
silently, a registration below the maximum is appended (with no
duplicate-identifier check), and the registry size never exceeds the
configured maximum. -/
theorem addParameter_capacity (maxParams : Nat) (params : List WMParameter)
    (p : Option WMParameter) :
    (params.length ≤ maxParams →
      (addParameter maxParams params p).length ≤ maxParams) ∧
    (params.length = maxParams → addParameter maxParams params p = params) ∧
    addParameter maxParams params none = params ∧
    (∀ param : WMParameter, params.length < maxParams →
      addParameter maxParams params (some param) = params ++ [param]) := by
  refine ⟨?_, ?_, rfl, ?_⟩
  · intro hle
    cases p with
    | none => simpa [addParameter] using hle
    | some param =>
        simp only [addParameter]
        split
        · simpa
        · exact hle
  · intro heq
    cases p with
    | none => rfl
    | some param => simp [addParameter, heq]
  · intro param hlt
    simp [addParameter, hlt]

/-- Claim C9 witness: the capacity bound applied at a concrete registry
of size 2 with maximum 2 — the registration is rejected and the size
stays within the bound. -/
theorem addParameter_capacity_witness :
    (addParameter 2 [⟨"a", "1"⟩, ⟨"b", "2"⟩] (some ⟨"c", "3"⟩)).length ≤ 2 ∧
    addParameter 2 [⟨"a", "1"⟩, ⟨"b", "2"⟩] (some ⟨"c", "3"⟩)
      = [⟨"a", "1"⟩, ⟨"b", "2"⟩] ∧
    addParameter 2 [⟨"a", "1"⟩, ⟨"b", "2"⟩] none = [⟨"a", "1"⟩, ⟨"b", "2"⟩] :=
  ⟨(addParameter_capacity 2 [⟨"a", "1"⟩, ⟨"b", "2"⟩] (some ⟨"c", "3"⟩)).1 (by decide),
   (addParameter_capacity 2 [⟨"a", "1"⟩, ⟨"b", "2"⟩] (some ⟨"c", "3"⟩)).2.1 (by decide),
   (addParameter_capacity 2 [⟨"a", "1"⟩, ⟨"b", "2"⟩] none).2.2.1⟩

/-- Claim C7 counterexample: on a well-formed query declaring two
questions the responder appends 16 bytes — exactly one answer record —
not one answer record per question (which would be 32 bytes). -/
theorem dnsServerRespond_per_question_counterexample :
    dnsQdcount dnsTwoQuestionPacket = 2 ∧
    dnsServerRespond dnsTwoQuestionPacket
      = some (dnsModifyHeader dnsTwoQuestionPacket ++ dnsAnswerRecord) ∧
    (dnsModifyHeader dnsTwoQuestionPacket ++ dnsAnswerRecord).length
      = dnsTwoQuestionPacket.length + 16 ∧
    dnsTwoQuestionPacket.length + 16 * dnsQdcount dnsTwoQuestionPacket
      ≠ (dnsModifyHeader dnsTwoQuestionPacket ++ dnsAnswerRecord).length :=
  ⟨rfl, by decide, by decide, by decide⟩

/-- Claim C7 amended: packets shorter than a DNS header are silently
ignored; every packet of at least header size is answered by echoing the
packet with the response and authoritative-answer flag bits set, the
answer count set to the question count, authority and additional counts
zeroed, the question section reused verbatim, and exactly one fixed
answer record appended (compressed-pointer name, type A, class IN,
60-second TTL, address 192.168.4.1) whenever the 16 extra bytes keep the
response under the 512-byte packet limit — independent of how many
questions the query declares. -/
theorem dnsServerRespond_spec :
    (∀ q : List Nat, q.length < DNS_HEADER_SIZE → dnsServerRespond q = none) ∧
    (∀ q : List Nat, DNS_HEADER_SIZE ≤ q.length →
        dnsServerRespond q =
          some (dnsModifyHeader q ++
            (if q.length + 16 < DNS_MAX_PACKET_SIZE then dnsAnswerRecord else []))) ∧
    (∀ (id0 id1 f0 f1 q0 q1 a0 a1 n0 n1 r0 r1 : Nat) (rest : List Nat),
        dnsModifyHeader
            (id0 :: id1 :: f0 :: f1 :: q0 :: q1 :: a0 :: a1 :: n0 :: n1 :: r0 :: r1 :: rest)
          = id0 :: id1 :: (f0 ||| 0x84) :: f1 :: q0 :: q1 :: q0 :: q1
              :: 0 :: 0 :: 0 :: 0 :: rest) ∧
    dnsAnswerRecord
      = [0xC0, 0x0C, 0x00, 0x01, 0x00, 0x01, 0x00, 0x00, 0x00, 0x3C, 0x00, 0x04,
          192, 168, 4, 1] := by
  refine ⟨?_, ?_, fun _ _ _ _ _ _ _ _ _ _ _ _ _ => rfl, rfl⟩
  · intro q hq
    simp [dnsServerRespond, hq]
  · intro q hq
    have h12 : ¬ q.length < DNS_HEADER_SIZE := Nat.not_lt.mpr hq
    by_cases hfit : q.length + 16 < DNS_MAX_PACKET_SIZE <;>
      simp [dnsServerRespond, h12, hfit]

/-- Claim C7 amended witness: a 3-byte truncated packet is dropped, and
the concrete two-question packet is answered per the responder contract. -/
theorem dnsServerRespond_spec_witness :
    dnsServerRespond [0, 1, 2] = none ∧
    dnsServerRespond dnsTwoQuestionPacket
      = some (dnsModifyHeader dnsTwoQuestionPacket ++
          (if dnsTwoQuestionPacket.length + 16 < DNS_MAX_PACKET_SIZE then
            dnsAnswerRecord
          else [])) :=
  ⟨dnsServerRespond_spec.1 [0, 1, 2] (by decide),
   dnsServerRespond_spec.2.1 dnsTwoQuestionPacket (by decide)⟩

/-- Elements of the duplicate-replacement pass come from the original
accumulator or are the new record. -/
theorem mem_replaceStronger {a ap : APRecord} {l : List APRecord}
    (h : a ∈ replaceStronger ap l) : a ∈ l ∨ a = ap := by
  induction l with
  | nil => simp [replaceStronger] at h
  | cons existing rest ih =>
      rw [replaceStronger] at h
      split at h
      · rcases List.mem_cons.1 h with h2 | h2
        · revert h2
          split
          · intro h2
            exact Or.inr h2
          · intro h2
            exact Or.inl (h2 ▸ List.mem_cons_self _ _)
        · exact Or.inl (List.mem_cons_of_mem _ h2)
      · rcases List.mem_cons.1 h with h2 | h2
        · exact Or.inl (h2 ▸ List.mem_cons_self _ _)
        · rcases ih h2 with h3 | h3
          · exact Or.inl (List.mem_cons_of_mem _ h3)
          · exact Or.inr h3

/-- The duplicate-replacement pass never changes the SSID sequence. -/
theorem replaceStronger_map_ssid (ap : APRecord) (l : List APRecord) :
    (replaceStronger ap l).map (fun r => r.ssid) = l.map (fun r => r.ssid) := by
  induction l with
  | nil => rfl
  | cons existing rest ih =>
      rw [replaceStronger]
      split
      · rename_i hss
        split <;> simp [hss]
      · simp [ih]

/-- The duplicate test answers true exactly when some accumulator entry
carries the SSID. -/
theorem isDuplicateSSID_iff (s : String) (l : List APRecord) :
    isDuplicateSSID s l = true ↔ s ∈ l.map (fun r => r.ssid) := by
  rw [isDuplicateSSID, List.any_eq_true]
  simp only [beq_iff_eq, List.mem_map]

/-- After a duplicate replacement, some entry carries the SSID of the new
record with at least its signal strength. -/
theorem replaceStronger_slot {ap : APRecord} {l : List APRecord}
    (h : isDuplicateSSID ap.ssid l = true) :
    ∃ a ∈ replaceStronger ap l, a.ssid = ap.ssid ∧ ap.rssi ≤ a.rssi := by
  induction l with
  | nil => simp [isDuplicateSSID] at h
  | cons existing rest ih =>
      rw [replaceStronger]
      by_cases hss : existing.ssid = ap.ssid
      · rw [if_pos hss]
        refine ⟨if existing.rssi < ap.rssi then ap else existing,
          List.mem_cons_self _ _, ?_, ?_⟩
        · split
          · rfl
          · exact hss
        · split <;> omega
      · rw [if_neg hss]
        have h2 : isDuplicateSSID ap.ssid rest = true := by
          simp [isDuplicateSSID] at h ⊢
          rcases h with h | h
          · exact absurd h hss
          · exact h
        obtain ⟨a, ha, h3, h4⟩ := ih h2
        exact ⟨a, List.mem_cons_of_mem _ ha, h3, h4⟩

/-- Every accumulator entry survives a duplicate replacement as an entry
with the same SSID and at least its signal strength. -/
theorem replaceStronger_survival {a ap : APRecord} {l : List APRecord}
    (h : a ∈ l) :
    ∃ a2 ∈ replaceStronger ap l, a2.ssid = a.ssid ∧ a.rssi ≤ a2.rssi := by
  induction l with
  | nil => simp at h
  | cons existing rest ih =>
      rw [replaceStronger]
      rcases List.mem_cons.1 h with rfl | hmem
      · by_cases hss : a.ssid = ap.ssid
        · rw [if_pos hss]
          refine ⟨if a.rssi < ap.rssi then ap else a,
            List.mem_cons_self _ _, ?_, ?_⟩
          · split
            · rw [hss]
            · rfl
          · split <;> omega
        · rw [if_neg hss]
          exact ⟨a, List.mem_cons_self _ _, rfl, le_refl _⟩
      · split
        · exact ⟨a, List.mem_cons_of_mem _ hmem, rfl, le_refl _⟩
        · obtain ⟨a2, ha2, h3, h4⟩ := ih hmem
          exact ⟨a2, List.mem_cons_of_mem _ ha2, h3, h4⟩

/-- Elements produced by one filtering-loop step come from the
accumulator or are the processed raw record. -/
theorem mem_filterStep {mq : Int} {rd : Bool} {acc : List APRecord}
    {ap a : APRecord} (h : a ∈ filterStep mq rd acc ap) : a ∈ acc ∨ a = ap := by
  rw [filterStep] at h
  split at h
  · exact Or.inl h
  · split at h
    · exact Or.inl h
    · split at h
      · exact mem_replaceStronger h
      · rcases List.mem_append.1 h with h2 | h2
        · exact Or.inl h2
        · simp at h2
          exact Or.inr h2

/-- One filtering-loop step preserves the invariant that every kept entry
has a non-empty SSID and quality at least the configured minimum. -/
theorem filterStep_good {mq : Int} {rd : Bool} {acc : List APRecord} {ap : APRecord}
    (hacc : ∀ a ∈ acc, a.ssid ≠ "" ∧ mq ≤ calculateSignalQuality a.rssi) :
    ∀ a ∈ filterStep mq rd acc ap,
      a.ssid ≠ "" ∧ mq ≤ calculateSignalQuality a.rssi := by
  intro a ha
  rw [filterStep] at ha
  split at ha
  · exact hacc a ha
  · split at ha
    · exact hacc a ha
    · rename_i hempty hqual
      have hgood : ap.ssid ≠ "" ∧ mq ≤ calculateSignalQuality ap.rssi := by
        refine ⟨hempty, ?_⟩
        have h0 : 0 ≤ calculateSignalQuality ap.rssi := by
          rw [calcQuality_eq]
          omega
        rcases not_and_or.1 hqual with h | h
        · omega
        · omega
      split at ha
      · rcases mem_replaceStronger ha with h2 | h2
        · exact hacc a h2
        · exact h2 ▸ hgood
      · rcases List.mem_append.1 ha with h2 | h2
        · exact hacc a h2
        · simp at h2
          exact h2 ▸ hgood

/-- With duplicate removal enabled, one filtering-loop step preserves
distinctness of the kept SSIDs. -/
theorem filterStep_nodup {mq : Int} {acc : List APRecord} {ap : APRecord}
    (hacc : (acc.map (fun r => r.ssid)).Nodup) :
    ((filterStep mq true acc ap).map (fun r => r.ssid)).Nodup := by
  rw [filterStep]
  split
  · exact hacc
  · split
    · exact hacc
    · split
      · rw [replaceStronger_map_ssid]
        exact hacc
      · rename_i hdup
        have hnot : ap.ssid ∉ acc.map (fun r => r.ssid) := by
          intro hmem
          exact hdup ⟨rfl, (isDuplicateSSID_iff _ _).2 hmem⟩
        simp [List.nodup_append, hnot, hacc]

/-- Every accumulator entry survives one filtering-loop step as an entry
with the same SSID and at least its signal strength. -/
theorem filterStep_survival {mq : Int} {rd : Bool} {acc : List APRecord}
    {ap : APRecord} :
    ∀ a ∈ acc, ∃ a2 ∈ filterStep mq rd acc ap,
      a2.ssid = a.ssid ∧ a.rssi ≤ a2.rssi := by
  intro a ha
  rw [filterStep]
  split
  · exact ⟨a, ha, rfl, le_refl _⟩
  · split
    · exact ⟨a, ha, rfl, le_refl _⟩
    · split
      · exact replaceStronger_survival ha
      · exact ⟨a, List.mem_append_left _ ha, rfl, le_refl _⟩

/-- A raw record passing the empty-SSID and quality filters is
represented after its own loop step (with duplicate removal enabled) by
an entry with its SSID and at least its signal strength. -/
theorem filterStep_handled {mq : Int} {acc : List APRecord} {ap : APRecord}
    (hpass : passesFilters mq ap) :
    ∃ a2 ∈ filterStep mq true acc ap, a2.ssid = ap.ssid ∧ ap.rssi ≤ a2.rssi := by
  obtain ⟨h1, h2⟩ := hpass
  rw [filterStep, if_neg h1, if_neg h2]
  split
  · rename_i hdup
    exact replaceStronger_slot hdup.2
  · exact ⟨ap, List.mem_append_right _ (List.mem_cons_self _ _), rfl, le_refl _⟩

/-- The filtering loop keeps only entries with a non-empty SSID and
quality at least the configured minimum. -/
theorem foldl_filterStep_good (mq : Int) (rd : Bool) :
    ∀ (raw acc : List APRecord),
      (∀ a ∈ acc, a.ssid ≠ "" ∧ mq ≤ calculateSignalQuality a.rssi) →
      ∀ a ∈ raw.foldl (filterStep mq rd) acc,
        a.ssid ≠ "" ∧ mq ≤ calculateSignalQuality a.rssi := by
  intro raw
  induction raw with
  | nil =>
      intro acc hacc a ha
      exact hacc a ha
  | cons x xs ih =>
      intro acc hacc a ha
      rw [List.foldl_cons] at ha
      exact ih _ (filterStep_good hacc) a ha

/-- With duplicate removal enabled, the filtering loop preserves
distinctness of the kept SSIDs. -/
theorem foldl_filterStep_nodup (mq : Int) :
    ∀ (raw acc : List APRecord),
      (acc.map (fun r => r.ssid)).Nodup →
      ((raw.foldl (filterStep mq true) acc).map (fun r => r.ssid)).Nodup := by
  intro raw
  induction raw with
  | nil =>
      intro acc hacc
      exact hacc
  | cons x xs ih =>
      intro acc hacc
      rw [List.foldl_cons]
      exact ih _ (filterStep_nodup hacc)

/-- Every accumulator entry survives the whole filtering loop as an entry
with the same SSID and at least its signal strength. -/
theorem foldl_filterStep_survival (mq : Int) (rd : Bool) :
    ∀ (raw acc : List APRecord), ∀ a ∈ acc,
      ∃ a2 ∈ raw.foldl (filterStep mq rd) acc,
        a2.ssid = a.ssid ∧ a.rssi ≤ a2.rssi := by
  intro raw
  induction raw with
  | nil =>
      intro acc a ha
      exact ⟨a, ha, rfl, le_refl _⟩
  | cons x xs ih =>
      intro acc a ha
      obtain ⟨a1, ha1, e1, l1⟩ := @filterStep_survival mq rd acc x a ha
      obtain ⟨a2, ha2, e2, l2⟩ := ih (filterStep mq rd acc x) a1 ha1
      rw [List.foldl_cons]
      exact ⟨a2, ha2, e2.trans e1, le_trans l1 l2⟩

/-- With duplicate removal enabled, every raw record passing the
empty-SSID and quality filters ends up dominated by a kept entry with
the same SSID and at least its signal strength. -/
theorem foldl_filterStep_handled (mq : Int) :
    ∀ (raw acc : List APRecord), ∀ b ∈ raw, passesFilters mq b →
      ∃ a ∈ raw.foldl (filterStep mq true) acc,
        a.ssid = b.ssid ∧ b.rssi ≤ a.rssi := by
  intro raw
  induction raw with
  | nil =>
      intro acc b hb
      simp at hb
  | cons x xs ih =>
      intro acc b hb hpass
      rw [List.foldl_cons]
      rcases List.mem_cons.1 hb with rfl | hmem
      · obtain ⟨a1, ha1, e1, l1⟩ := @filterStep_handled mq acc _ hpass
        obtain ⟨a2, ha2, e2, l2⟩ := foldl_filterStep_survival mq true xs _ a1 ha1
        exact ⟨a2, ha2, e2.trans e1, le_trans l1 l2⟩
      · exact ih _ b hmem hpass

/-- Every entry kept by the filtering loop started on an empty
accumulator comes from the raw list. -/
theorem foldl_filterStep_mem (mq : Int) (rd : Bool) :
    ∀ (raw acc : List APRecord), ∀ a ∈ raw.foldl (filterStep mq rd) acc,
      a ∈ acc ∨ a ∈ raw := by
  intro raw
  induction raw with
  | nil =>
      intro acc a ha
      exact Or.inl ha
  | cons x xs ih =>
      intro acc a ha
      rw [List.foldl_cons] at ha
      rcases ih _ a ha with h | h
      · rcases mem_filterStep h with h2 | h2
        · exact Or.inl h2
        · exact Or.inr (h2 ▸ List.mem_cons_self _ _)
      · exact Or.inr (List.mem_cons_of_mem _ h)

/-- Membership in the descending insertion. -/
theorem mem_insertByRssi {a ap : APRecord} {l : List APRecord} :
    a ∈ insertByRssi ap l ↔ a = ap ∨ a ∈ l := by
  induction l with
  | nil => simp [insertByRssi]
  | cons b rest ih =>
      rw [insertByRssi]
      split
      · simp [List.mem_cons]
      · simp only [List.mem_cons, ih]
        tauto

/-- The descending insertion is a permutation of consing. -/
theorem perm_insertByRssi (ap : APRecord) (l : List APRecord) :
    (insertByRssi ap l).Perm (ap :: l) := by
  induction l with
  | nil => simp [insertByRssi]
  | cons b rest ih =>
      rw [insertByRssi]
      split
      · exact List.Perm.refl _
      · exact (List.Perm.cons b ih).trans (List.Perm.swap ap b rest)

/-- The descending sort permutes its input. -/
theorem perm_sortByRssiDesc (l : List APRecord) : (sortByRssiDesc l).Perm l := by
  induction l with
  | nil => exact List.Perm.refl _
  | cons b rest ih =>
      rw [sortByRssiDesc, List.foldr_cons]
      exact (perm_insertByRssi b _).trans (List.Perm.cons b ih)

/-- Descending insertion preserves the non-increasing rssi ordering. -/
theorem sorted_insertByRssi {ap : APRecord} {l : List APRecord}
    (h : l.Pairwise (fun x y => y.rssi ≤ x.rssi)) :
    (insertByRssi ap l).Pairwise (fun x y => y.rssi ≤ x.rssi) := by
  induction l with
  | nil => simp [insertByRssi]
  | cons b rest ih =>
      rw [insertByRssi]
      rcases List.pairwise_cons.1 h with ⟨hb, hrest⟩
      split
      · rename_i hlt
        refine List.pairwise_cons.2 ⟨?_, h⟩
        intro c hc
        rcases List.mem_cons.1 hc with rfl | hcr
        · omega
        · have := hb c hcr
          omega
      · rename_i hnlt
        refine List.pairwise_cons.2 ⟨?_, ih hrest⟩
        intro c hc
        rcases mem_insertByRssi.1 hc with rfl | hcr
        · omega
        · exact hb c hcr

/-- The descending sort produces a list ordered by non-increasing rssi. -/
theorem sorted_sortByRssiDesc (l : List APRecord) :
    (sortByRssiDesc l).Pairwise (fun x y => y.rssi ≤ x.rssi) := by
  induction l with
  | nil => simp [sortByRssiDesc]
  | cons b rest ih =>
      rw [sortByRssiDesc, List.foldr_cons]
      exact sorted_insertByRssi ih

/-- In a list with pairwise-distinct SSIDs, two members sharing an SSID
are the same entry. -/
theorem eq_of_mem_nodup_ssid {l : List APRecord} {a b : APRecord}
    (hnd : (l.map (fun r => r.ssid)).Nodup)
    (ha : a ∈ l) (hb : b ∈ l) (hss : a.ssid = b.ssid) : a = b := by
  induction l with
  | nil => simp at ha
  | cons c rest ih =>
      rw [List.map_cons, List.nodup_cons] at hnd
      obtain ⟨hc, hrest⟩ := hnd
      rcases List.mem_cons.1 ha with rfl | ha2
      · rcases List.mem_cons.1 hb with rfl | hb2
        · rfl
        · have hmem : b.ssid ∈ rest.map (fun r => r.ssid) :=
            List.mem_map_of_mem _ hb2
          rw [← hss] at hmem
          exact absurd hmem hc
      · rcases List.mem_cons.1 hb with rfl | hb2
        · have hmem : a.ssid ∈ rest.map (fun r => r.ssid) :=
            List.mem_map_of_mem _ ha2
          rw [hss] at hmem
          exact absurd hmem hc
        · exact ih hrest ha2 hb2

/-- Claim C5 counterexample: with the duplicate-removal flag disabled,
two raw entries sharing the SSID a both survive the pipeline, so the
output does contain two entries with the same SSID. -/
theorem filterScanResults_duplicate_counterexample :
    filterScanResults 0 false rawDup = rawDup ∧
    ¬ ((filterScanResults 0 false rawDup).map (fun r => r.ssid)).Nodup := by
  constructor
  · decide
  · decide

/-- Claim C5 amended: for every raw scan list and configuration, every
output entry comes from the raw list, has a non-empty SSID and quality at
least the configured minimum, and the output is sorted by non-increasing
raw signal strength; when (and only guaranteed when) the
duplicate-removal flag is enabled, the output SSIDs are pairwise distinct
and each output entry dominates every raw entry sharing its SSID, i.e.
each retained SSID keeps its strongest-signal instance. -/
theorem filterScanResults_pipeline (minQ : Int) (rd : Bool) (raw : List APRecord) :
    (∀ a ∈ filterScanResults minQ rd raw, a ∈ raw) ∧
    (∀ a ∈ filterScanResults minQ rd raw, a.ssid ≠ "") ∧
    (∀ a ∈ filterScanResults minQ rd raw, minQ ≤ calculateSignalQuality a.rssi) ∧
    (filterScanResults minQ rd raw).Pairwise (fun x y => y.rssi ≤ x.rssi) ∧
    (rd = true → ((filterScanResults minQ rd raw).map (fun r => r.ssid)).Nodup) ∧
    (rd = true → ∀ a ∈ filterScanResults minQ rd raw, ∀ b ∈ raw,
        b.ssid = a.ssid → b.rssi ≤ a.rssi) := by
  by_cases hraw : raw = []
  · subst hraw
    simp [filterScanResults]
  · have hunfold : filterScanResults minQ rd raw
        = sortByRssiDesc (raw.foldl (filterStep minQ rd) []) := by
      rw [filterScanResults, if_neg hraw]
    have hperm : (filterScanResults minQ rd raw).Perm
        (raw.foldl (filterStep minQ rd) []) := by
      rw [hunfold]
      exact perm_sortByRssiDesc _
    have hmemF : ∀ a : APRecord, a ∈ filterScanResults minQ rd raw ↔
        a ∈ raw.foldl (filterStep minQ rd) [] := fun a => hperm.mem_iff
    refine ⟨?_, ?_, ?_, ?_, ?_, ?_⟩
    · intro a ha
      rcases foldl_filterStep_mem minQ rd raw [] a ((hmemF a).1 ha) with h | h
      · simp at h
      · exact h
    · intro a ha
      exact (foldl_filterStep_good minQ rd raw [] (by simp) a ((hmemF a).1 ha)).1
    · intro a ha
      exact (foldl_filterStep_good minQ rd raw [] (by simp) a ((hmemF a).1 ha)).2
    · rw [hunfold]
      exact sorted_sortByRssiDesc _
    · intro hrd
      subst hrd
      have h1 : ((raw.foldl (filterStep minQ true) []).map (fun r => r.ssid)).Nodup :=
        foldl_filterStep_nodup minQ raw [] (by simp)
      exact ((hperm.map _).nodup_iff).2 h1
    · intro hrd a ha b hb hss
      subst hrd
      have hndF : ((raw.foldl (filterStep minQ true) []).map (fun r => r.ssid)).Nodup :=
        foldl_filterStep_nodup minQ raw [] (by simp)
      have haF : a ∈ raw.foldl (filterStep minQ true) [] := (hmemF a).1 ha
      by_cases hpass : passesFilters minQ b
      · obtain ⟨a2, ha2, e2, l2⟩ := foldl_filterStep_handled minQ raw [] b hb hpass
        have heq2 : a2 = a := eq_of_mem_nodup_ssid hndF ha2 haF (by rw [e2, hss])
        exact heq2 ▸ l2
      · rw [passesFilters, not_and_or] at hpass
        have hga := foldl_filterStep_good minQ true raw [] (by simp) a haF
        rcases hpass with h | h
        · rw [not_not] at h
          rw [← hss] at hga
          exact absurd h hga.1
        · rw [not_not] at h
          by_contra hbc
          push_neg at hbc
          have hmono : calculateSignalQuality a.rssi ≤ calculateSignalQuality b.rssi := by
            rw [calcQuality_eq, calcQuality_eq]
            omega
          omega

/-- Claim C5 amended witness: the pipeline applied to the concrete mixed
raw list with threshold 10 and duplicate removal on — distinct SSIDs and
strongest-instance domination hold there. -/
theorem filterScanResults_pipeline_witness :
    ((filterScanResults 10 true rawEx).map (fun r => r.ssid)).Nodup ∧
    (∀ a ∈ filterScanResults 10 true rawEx, ∀ b ∈ rawEx,
        b.ssid = a.ssid → b.rssi ≤ a.rssi) :=
  ⟨(filterScanResults_pipeline 10 true rawEx).2.2.2.2.1 rfl,
   (filterScanResults_pipeline 10 true rawEx).2.2.2.2.2 rfl⟩

end WiFiMgr
